/-
Verification of the rendering-session core of a Luxor-style 2D drawing API
(source: luxor_like.py).

The embedding models, faithfully to the Python source:
  * the Python error values the code can raise (`PyErr`);
  * the color normalizer `_parse_color` (strings are modelled as lists of
    character codes, since that is exactly what the byte-level string
    operations of the source consume);
  * the coordinate transform `_to_canvas_xy` and the symbolic origin "O";
  * the process-wide drawing context `_ctx`, the `png` context manager,
    and every public drawing / state-setting command as a function from
    the context to `Except PyErr`-results (backend painting calls are
    effects on the external cairo/PIL surface and have no effect on the
    `_ctx` dictionary, so commands return the unchanged context together
    with the values the source computes from it);
  * the minor-arc geometry of `arc2r` over the real numbers, with
    `math.atan2` modelled by `Complex.arg` (the same (-pi, pi] convention).

Numeric values are modelled as rationals where the source only adds,
divides and compares (colors, transform, paint state), and as reals in the
arc geometry where `atan2`/`hypot` are genuinely transcendental.
-/
import Mathlib

/-- Python exception values that the drawing core can raise. -/
inductive PyErr where
  | runtimeError (msg : String)
  | valueError (msg : String)
  | typeError (msg : String)
  | indexError (msg : String)
deriving DecidableEq, Repr

/-- Error raised by `_require_ctx` when no session is active (line 69). -/
def noActiveErr : PyErr :=
  .runtimeError "Drawing commands must be used inside `with png(...):`"

/-- Error raised when the one-character string "O" reaches the float
addition inside `_to_canvas_xy`. -/
def originTypeErr : PyErr :=
  .typeError "unsupported operand type for +: float and str"

/-- Character codes of a string literal; Python strings are handled at the
level of their character sequences. -/
def codes (s : String) : List ℕ := s.data.map Char.toNat

/-- Model of Python `str.strip` for the ASCII whitespace characters. -/
def pyStrip (cs : List ℕ) : List ℕ :=
  let ws : ℕ → Bool := fun n => n = 9 ∨ n = 10 ∨ n = 11 ∨ n = 12 ∨ n = 13 ∨ n = 32
  ((cs.dropWhile ws).reverse.dropWhile ws).reverse

/-- Model of Python `str.lower` on ASCII letters. -/
def pyLower (cs : List ℕ) : List ℕ :=
  cs.map (fun n => if 65 ≤ n ∧ n ≤ 90 then n + 32 else n)

/-- Input domain of `_parse_color`: `None`, a tuple/list of numbers, or a
string (as character codes). -/
inductive ColorInput where
  | none
  | triple (vals : List ℚ)
  | str (cs : List ℕ)
deriving DecidableEq, Repr

/-- The `_SIMPLE_COLORS` table (lines 40-50), keyed by character codes. -/
def simpleColors (key : List ℕ) : Option (ℚ × ℚ × ℚ) :=
  if key = codes "black" then some (0.0, 0.0, 0.0)
  else if key = codes "white" then some (1.0, 1.0, 1.0)
  else if key = codes "red" then some (1.0, 0.0, 0.0)
  else if key = codes "green" then some (0.0, 1.0, 0.0)
  else if key = codes "blue" then some (0.0, 0.0, 1.0)
  else if key = codes "darkblue" then some (0.06, 0.06, 0.5)
  else if key = codes "navy" then some (0.0, 0.0, 0.5)
  else if key = codes "yellow" then some (1.0, 1.0, 0.0)
  else if key = codes "gray" then some (0.5, 0.5, 0.5)
  else none

/-- Value of a single hexadecimal digit character (the keys reaching the hex
branch have already been lowercased, exactly as in the source). -/
def hexVal (n : ℕ) : Option ℕ :=
  if 48 ≤ n ∧ n ≤ 57 then some (n - 48)
  else if 97 ≤ n ∧ n ≤ 102 then some (n - 87)
  else none

/-- ASCII whitespace character codes, the characters Python `int` strips
around a numeric literal (and `str.strip` strips at the ends). -/
def wsCode (n : ℕ) : Bool :=
  n = 9 ∨ n = 10 ∨ n = 11 ∨ n = 12 ∨ n = 13 ∨ n = 32

/-- Model of `int(c1 ++ c2, 16)` on a two-character slice.  Python `int`
accepts an optional leading sign and surrounding whitespace around the hex
digits, so the valid two-character forms are digit-digit (value
`16*hi + lo`), sign-digit (`int("+f", 16) = 15`, `int("-a", 16) = -10` -
the result can be negative), whitespace-digit and digit-whitespace; an
underscore is only legal between two digits, so no two-character form has
one.  Every other slice raises `ValueError`. -/
def int16OfPair (c1 c2 : ℕ) : Except PyErr ℤ :=
  match hexVal c1, hexVal c2 with
  | some hi, some lo => .ok (16 * (hi : ℤ) + (lo : ℤ))
  | some hi, none =>
    if wsCode c2 then .ok (hi : ℤ)
    else .error (.valueError "invalid literal for int() with base 16")
  | none, some lo =>
    if c1 = 43 then .ok (lo : ℤ)
    else if c1 = 45 then .ok (-(lo : ℤ))
    else if wsCode c1 then .ok (lo : ℤ)
    else .error (.valueError "invalid literal for int() with base 16")
  | none, none => .error (.valueError "invalid literal for int() with base 16")

/-- Guard of the hex branch (line 100): `key.startswith("#") and len(key)
in (4, 7)`. -/
def hexShaped (key : List ℕ) : Bool :=
  key.headD 0 == 35 && (key.length == 4 || key.length == 7)

/-- Model of `_parse_color` (lines 78-111) with the optional matplotlib
resolver absent - per the module's optional-import probing that resolver may
be missing, and the spec makes the minimal table plus hex parsing the
guaranteed contract.  A tuple/list shorter than three components raises
(`max` of an empty sequence is a `ValueError`, indexing past the end an
`IndexError`), exactly as the source expressions do. -/
def parse_color : ColorInput → Except PyErr (ℚ × ℚ × ℚ)
  | .none => .ok (0.0, 0.0, 0.0)
  | .triple vals =>
    match vals.take 3 with
    | [] => .error (.valueError "max() arg is an empty sequence")
    | [_] => .error (.indexError "tuple index out of range")
    | [_, _] => .error (.indexError "tuple index out of range")
    | v0 :: v1 :: v2 :: _ =>
      if 1 < max v0 (max v1 v2) then .ok (v0 / 255, v1 / 255, v2 / 255)
      else .ok (v0, v1, v2)
  | .str cs =>
    let key := pyLower (pyStrip cs)
    match simpleColors key with
    | some c => .ok c
    | Option.none =>
      if hexShaped key then
        if key.length == 7 then
          match int16OfPair (key.getD 1 0) (key.getD 2 0) with
          | .error e => .error e
          | .ok r =>
            match int16OfPair (key.getD 3 0) (key.getD 4 0) with
            | .error e => .error e
            | .ok g =>
              match int16OfPair (key.getD 5 0) (key.getD 6 0) with
              | .error e => .error e
              | .ok b => .ok ((r : ℚ) / 255, (g : ℚ) / 255, (b : ℚ) / 255)
        else
          match int16OfPair (key.getD 1 0) (key.getD 1 0) with
          | .error e => .error e
          | .ok r =>
            match int16OfPair (key.getD 2 0) (key.getD 2 0) with
            | .error e => .error e
            | .ok g =>
              match int16OfPair (key.getD 3 0) (key.getD 3 0) with
              | .error e => .error e
              | .ok b => .ok ((r : ℚ) / 255, (g : ℚ) / 255, (b : ℚ) / 255)
      else .ok (0.0, 0.0, 0.0)

/-- A point argument of a drawing command: either the symbolic origin "O"
or an honest pair of coordinates. -/
inductive PtArg where
  | O
  | pt (p : ℚ × ℚ)
deriving DecidableEq, Repr

/-- The process-wide `_ctx` dictionary (lines 52-64).  The cairo/PIL handle
fields hold opaque foreign objects; the model only tracks whether they are
`None`. -/
structure Ctx where
  backend : Option String
  hasSurface : Bool
  hasCtx : Bool
  width : ℚ
  height : ℚ
  current_color : ℚ × ℚ × ℚ
  alpha : ℚ
  dash : Option (List ℚ)
  line_width : ℚ
  hasPilImage : Bool
  current_point : Option PtArg
deriving DecidableEq, Repr

/-- The no-active-session state: the module-load value of `_ctx`, which is
also exactly what the `finally` block of `png` restores (lines 170-182). -/
def resetCtx : Ctx :=
  { backend := none, hasSurface := false, hasCtx := false, width := 0,
    height := 0, current_color := (0.0, 0.0, 0.0), alpha := 1.0,
    dash := none, line_width := 2.0, hasPilImage := false,
    current_point := none }

/-- Context set up by `png` when cairo is available (lines 126-143). -/
def openCairo (w h : ℚ) : Ctx :=
  { backend := some "cairo", hasSurface := true, hasCtx := true, width := w,
    height := h, current_color := (0.0, 0.0, 0.0), alpha := 1.0,
    dash := none, line_width := 2.0, hasPilImage := false,
    current_point := none }

/-- Context set up by `png` when only PIL is available (lines 144-159). -/
def openPil (w h : ℚ) : Ctx :=
  { backend := some "pil", hasSurface := false, hasCtx := true, width := w,
    height := h, current_color := (0.0, 0.0, 0.0), alpha := 1.0,
    dash := none, line_width := 2.0, hasPilImage := true,
    current_point := none }

/-- A session is active when neither `_ctx["backend"]` nor `_ctx["ctx"]`
is `None` - the exact complement of the check in `_require_ctx`. -/
def openSession (s : Ctx) : Prop := s.backend ≠ none ∧ s.hasCtx = true

instance (s : Ctx) : Decidable (openSession s) := by
  unfold openSession; infer_instance

/-- Model of `_require_ctx` (lines 67-69). -/
def require_ctx (s : Ctx) : Except PyErr Unit :=
  if s.backend = none ∨ s.hasCtx = false then .error noActiveErr
  else .ok ()

/-- Model of `_to_canvas_xy` (lines 72-75). -/
def to_canvas_xy (w h : ℚ) (p : ℚ × ℚ) : ℚ × ℚ :=
  (w / 2 + p.1, h / 2 + p.2)

/-- Feeding a point argument to `_to_canvas_xy`: a coordinate pair goes
through the additive formula; the string "O" reaches `p[0]`, which yields
the one-character string "O" again, and `width / 2 + "O"` raises a
`TypeError` in Python. -/
def toCanvasArg (s : Ctx) : PtArg → Except PyErr (ℚ × ℚ)
  | .O => .error originTypeErr
  | .pt p => .ok (to_canvas_xy s.width s.height p)

/-- Model of `sethue` (lines 185-190); the cairo `set_source_rgba` call is
a backend effect and touches no `_ctx` field. -/
def sethue (s : Ctx) (col : ColorInput) : Except PyErr Ctx := do
  require_ctx s
  let rgb ← parse_color col
  pure { s with current_color := rgb }

/-- Model of `setopacity` (lines 193-198). -/
def setopacity (s : Ctx) (a : ℚ) : Except PyErr Ctx := do
  require_ctx s
  pure { s with alpha := max 0.0 (min 1.0 a) }

/-- Model of `setlinewidth` (lines 201-205). -/
def setlinewidth (s : Ctx) (w : ℚ) : Except PyErr Ctx := do
  require_ctx s
  pure { s with line_width := max 0.1 w }

/-- Dash-style argument of `setdash`: `None`, a named style, or an explicit
numeric pattern. -/
inductive DashArg where
  | none
  | str (st : String)
  | pattern (xs : List ℚ)
deriving DecidableEq, Repr

/-- The style dispatch of `setdash` (lines 210-219). -/
def dashOf : DashArg → Except PyErr (Option (List ℚ))
  | .none => .ok none
  | .str st =>
    if st = "solid" then .ok none
    else if st = "dot" then .ok (some [1.5, 3.0])
    else if st = "dash" then .ok (some [6.0, 4.0])
    else .error (.valueError "Unknown dash style")
  | .pattern xs => .ok (some xs)

/-- Model of `setdash` (lines 208-223). -/
def setdash (s : Ctx) (style : DashArg) : Except PyErr Ctx := do
  require_ctx s
  let d ← dashOf style
  pure { s with dash := d }

/-- Model of `background` (lines 226-238); painting is a backend effect,
so the command yields the parsed color it paints with, and the context. -/
def backgroundCmd (s : Ctx) (col : ColorInput) :
    Except PyErr ((ℚ × ℚ × ℚ) × Ctx) := do
  require_ctx s
  let rgb := parse_color col
  match rgb with
  | .error e => .error e
  | .ok c => pure (c, s)

/-- Model of `circle` (lines 241-270): the `center == "O"` test
short-circuits to the literal pixel midpoint without calling
`_to_canvas_xy`; the command yields the pixel center it draws at. -/
def circleCmd (s : Ctx) (center : PtArg) (radius : ℚ)
    (stroke fill : Bool) : Except PyErr ((ℚ × ℚ) × Ctx) := do
  require_ctx s
  let cxy :=
    match center with
    | .O => (s.width / 2, s.height / 2)
    | .pt p => to_canvas_xy s.width s.height p
  let _ := (radius, stroke, fill)
  pure (cxy, s)

/-- Model of `rect` (lines 273-304), with the same "O" short-circuit. -/
def rectCmd (s : Ctx) (center : PtArg) (w h : ℚ)
    (stroke fill : Bool) : Except PyErr ((ℚ × ℚ) × Ctx) := do
  require_ctx s
  let cxy :=
    match center with
    | .O => (s.width / 2, s.height / 2)
    | .pt p => to_canvas_xy s.width s.height p
  let _ := (w, h, stroke, fill)
  pure (cxy, s)

/-- Model of `line` (lines 307-327): both endpoints go straight through
`_to_canvas_xy`, so the symbolic origin raises. -/
def lineCmd (s : Ctx) (p1 p2 : PtArg) :
    Except PyErr ((ℚ × ℚ) × (ℚ × ℚ) × Ctx) := do
  require_ctx s
  let a ← toCanvasArg s p1
  let b ← toCanvasArg s p2
  pure (a, b, s)

/-- Model of `bezier` (lines 330-372): all four control points go through
`_to_canvas_xy`. -/
def bezierCmd (s : Ctx) (p0 p1 p2 p3 : PtArg) :
    Except PyErr ((ℚ × ℚ) × (ℚ × ℚ) × (ℚ × ℚ) × (ℚ × ℚ) × Ctx) := do
  require_ctx s
  let a ← toCanvasArg s p0
  let b ← toCanvasArg s p1
  let c ← toCanvasArg s p2
  let d ← toCanvasArg s p3
  pure (a, b, c, d, s)

/-- Model of `label` (lines 375-421): the position goes through
`_to_canvas_xy`; the anchor offsets depend on backend font metrics
(an external collaborator) and shift the returned pixel point only, so the
command yields the pre-anchor pixel position. -/
def labelCmd (s : Ctx) (text anchor : String) (pos : PtArg)
    (fontsize : ℚ) : Except PyErr ((ℚ × ℚ) × Ctx) := do
  require_ctx s
  let xy ← toCanvasArg s pos
  let _ := (text, anchor, fontsize)
  pure (xy, s)

/-- Model of `move` (lines 442-444): stores the argument object, whatever
it is, as the current point; nothing inspects its coordinates. -/
def move (s : Ctx) (p : PtArg) : Except PyErr Ctx := do
  require_ctx s
  pure { s with current_point := some p }

/-- Model of `randomhue` (lines 437-439) with the three uniform samples
drawn by `random.random()` passed explicitly; each lies in [0, 1). -/
def randomhue (s : Ctx) (r1 r2 r3 : ℚ) : Except PyErr Ctx := do
  require_ctx s
  sethue s (.triple [r1, r2, r3])

/-- Session-level model of `arc2r` (lines 447-468): the `_require_ctx`
check and the resolution `c = (0.0, 0.0) if center == "O" else center`;
the command yields the resolved logical center.  The angular geometry the
call then performs on the resolved points is `arc2rSpec` below, a total
real-valued computation that raises no Python exception. -/
def arc2rCmd (s : Ctx) (center : PtArg) (p_from p_to : ℚ × ℚ) :
    Except PyErr ((ℚ × ℚ) × Ctx) := do
  require_ctx s
  let c :=
    match center with
    | .O => ((0 : ℚ), (0 : ℚ))
    | .pt p => p
  let _ := (p_from, p_to)
  pure (c, s)

/-- Outcome of one `with png(...)` block. -/
structure PngResult where
  finalCtx : Ctx
  wrote : Bool
  exn : Option PyErr
deriving DecidableEq, Repr

/-- Model of the `png` context manager (lines 124-182).  `hasCairo` and
`hasPIL` are the import-probe flags; the body of the `with` block is an
arbitrary state transformer that either finishes normally or raises.  On a
backend: the block runs, then - still inside `try` - the surface is saved
if and only if the block did not raise, and the `finally` clause restores
every `_ctx` field to its no-session default on every exit path.  With no
backend the `RuntimeError` is raised before `try`, leaving `_ctx` alone. -/
def pngRun (hasCairo hasPIL : Bool) (w h : ℚ)
    (block : Ctx → Ctx × Option PyErr) (s0 : Ctx) : PngResult :=
  if hasCairo then
    match (block (openCairo w h)).2 with
    | none => { finalCtx := resetCtx, wrote := true, exn := none }
    | some e => { finalCtx := resetCtx, wrote := false, exn := some e }
  else if hasPIL then
    match (block (openPil w h)).2 with
    | none => { finalCtx := resetCtx, wrote := true, exn := none }
    | some e => { finalCtx := resetCtx, wrote := false, exn := some e }
  else
    { finalCtx := s0, wrote := false,
      exn := some (.runtimeError "No supported backend. Install pycairo or Pillow.") }

/-- Model of `math.atan2 y x`: the argument of the complex number
`x + y*i`, in the interval (-pi, pi], the convention `math.atan2`
implements on the reals. -/
noncomputable def atan2 (y x : ℝ) : ℝ := Complex.arg ⟨x, y⟩

/-- One pass of the `while da <= 0: da += 2 * math.pi` normalization
(lines 462-463 and 467-468).  The loop input is a difference of two
`atan2` values, hence lies in (-2 pi, 2 pi), so the body executes at most
once; `ccwNormFuel` below is the loop itself and
`ccwNormFuel_eq_ccwNorm` proves the two agree on the loop's inputs. -/
noncomputable def ccwNorm (da : ℝ) : ℝ :=
  if da ≤ 0 then da + 2 * Real.pi else da

/-- The literal `while da <= 0: da += 2 * math.pi` loop, fuelled. -/
noncomputable def ccwNormFuel : ℕ → ℝ → ℝ
  | 0, da => da
  | n + 1, da => if da ≤ 0 then ccwNormFuel n (da + 2 * Real.pi) else da

/-- Radius, start angle, end angle and counter-clockwise sweep computed by
`arc2r` and handed to the backend arc primitive. -/
structure ArcSpec where
  radius : ℝ
  a1 : ℝ
  a2 : ℝ
  delta : ℝ

/-- The arc geometry of `arc2r` (lines 453-468) on the resolved center:
radius by `math.hypot`, boundary angles by `math.atan2`, counter-clockwise
delta normalized into (0, 2 pi], and a start/end swap with renormalization
whenever that delta exceeds pi. -/
noncomputable def arc2rSpec (c p_from p_to : ℝ × ℝ) : ArcSpec :=
  let fx := p_from.1 - c.1
  let fy := p_from.2 - c.2
  let tx := p_to.1 - c.1
  let ty := p_to.2 - c.2
  let r := Real.sqrt (fx ^ 2 + fy ^ 2)
  let a1 := atan2 fy fx
  let a2 := atan2 ty tx
  let da := ccwNorm (a2 - a1)
  if Real.pi < da then
    { radius := r, a1 := a2, a2 := a1, delta := ccwNorm (a1 - a2) }
  else
    { radius := r, a1 := a1, a2 := a2, delta := da }

/-- All three channels of a color lie in the unit interval. -/
def inUnitRange (c : ℚ × ℚ × ℚ) : Prop :=
  0 ≤ c.1 ∧ c.1 ≤ 1 ∧ 0 ≤ c.2.1 ∧ c.2.1 ≤ 1 ∧ 0 ≤ c.2.2 ∧ c.2.2 ≤ 1

instance (c : ℚ × ℚ × ℚ) : Decidable (inUnitRange c) := by
  unfold inUnitRange; infer_instance

/-- All characters a hex-shaped key would feed to `int(-, 16)` are hex
digits (trivially true for keys that are not hex-shaped). -/
def hexDigitsOK (key : List ℕ) : Bool :=
  if key.length == 7 then
    (hexVal (key.getD 1 0)).isSome && (hexVal (key.getD 2 0)).isSome &&
    (hexVal (key.getD 3 0)).isSome && (hexVal (key.getD 4 0)).isSome &&
    (hexVal (key.getD 5 0)).isSome && (hexVal (key.getD 6 0)).isSome
  else if key.length == 4 then
    (hexVal (key.getD 1 0)).isSome && (hexVal (key.getD 2 0)).isSome &&
    (hexVal (key.getD 3 0)).isSome
  else true

/-- A slice parse succeeded. -/
def isOkE (e : Except PyErr ℤ) : Bool :=
  match e with
  | .ok _ => true
  | .error _ => false

/-- Every two-character slice a hex-shaped key feeds to `int(-, 16)` is a
valid base-16 literal - two hex digits, or a sign or whitespace character
next to one digit (trivially true for keys that are not hex-shaped).
This is the exact condition under which the hex branch of `_parse_color`
completes without raising. -/
def hexSlicesOK (key : List ℕ) : Bool :=
  if key.length == 7 then
    isOkE (int16OfPair (key.getD 1 0) (key.getD 2 0)) &&
    isOkE (int16OfPair (key.getD 3 0) (key.getD 4 0)) &&
    isOkE (int16OfPair (key.getD 5 0) (key.getD 6 0))
  else if key.length == 4 then
    isOkE (int16OfPair (key.getD 1 0) (key.getD 1 0)) &&
    isOkE (int16OfPair (key.getD 2 0) (key.getD 2 0)) &&
    isOkE (int16OfPair (key.getD 3 0) (key.getD 3 0))
  else true

/-- An opened context only distinguishes which backend probe succeeded. -/
def openedCtx (hc : Bool) (w h : ℚ) : Ctx :=
  if hc then openCairo w h else openPil w h

theorem require_ctx_ok (s : Ctx) (h : openSession s) : require_ctx s = .ok () := by
  obtain ⟨hb, hc⟩ := h
  unfold require_ctx
  rw [if_neg]
  push_neg
  exact ⟨hb, by simp [hc]⟩

theorem require_ctx_err (s : Ctx) (h : ¬ openSession s) :
    require_ctx s = .error noActiveErr := by
  have hcond : s.backend = none ∨ s.hasCtx = false := by
    unfold openSession at h
    push_neg at h
    by_cases hb : s.backend = none
    · exact Or.inl hb
    · exact Or.inr (by simpa using h hb)
  unfold require_ctx
  rw [if_pos hcond]

theorem atan2_lb (y x : ℝ) : -Real.pi < atan2 y x := Complex.neg_pi_lt_arg _

theorem atan2_ub (y x : ℝ) : atan2 y x ≤ Real.pi := Complex.arg_le_pi _

theorem atan2_zero_of_nonneg (x : ℝ) (hx : 0 ≤ x) : atan2 0 x = 0 := by
  unfold atan2
  have h : (⟨x, (0 : ℝ)⟩ : ℂ) = (x : ℂ) := rfl
  rw [h]
  exact Complex.arg_ofReal_of_nonneg hx

theorem atan2_one_zero : atan2 1 0 = Real.pi / 2 := by
  unfold atan2
  have h : (⟨(0 : ℝ), (1 : ℝ)⟩ : ℂ) = Complex.I := rfl
  rw [h]
  exact Complex.arg_I

theorem ccwNormFuel_of_pos (n : ℕ) (x : ℝ) (hx : 0 < x) : ccwNormFuel n x = x := by
  cases n with
  | zero => rfl
  | succ k => unfold ccwNormFuel; rw [if_neg (not_le.mpr hx)]

/-- On inputs strictly above -2 pi - and every difference of two `atan2`
values is - the source's `while` loop body runs at most once, so the loop
agrees with the single conditional add `ccwNorm`. -/
theorem ccwNormFuel_eq_ccwNorm (n : ℕ) (da : ℝ) (hn : 1 ≤ n)
    (hda : -(2 * Real.pi) < da) : ccwNormFuel n da = ccwNorm da := by
  obtain ⟨k, rfl⟩ : ∃ k, n = k + 1 := ⟨n - 1, by omega⟩
  unfold ccwNormFuel ccwNorm
  by_cases h : da ≤ 0
  · rw [if_pos h, if_pos h, ccwNormFuel_of_pos _ _ (by linarith)]
  · rw [if_neg h, if_neg h]

/-- Core angle fact: whenever the two boundary angles differ, normalizing
the counter-clockwise delta and swapping once if it exceeds pi lands in
(0, pi]. -/
theorem ccwNorm_minor (a1 a2 : ℝ) (h1 : -Real.pi < a1) (h1p : a1 ≤ Real.pi)
    (h2 : -Real.pi < a2) (h2p : a2 ≤ Real.pi) (hne : a1 ≠ a2) :
    (if Real.pi < ccwNorm (a2 - a1) then ccwNorm (a1 - a2)
     else ccwNorm (a2 - a1)) ≤ Real.pi := by
  have hpi := Real.pi_pos
  unfold ccwNorm
  split_ifs <;>
    first
      | linarith
      | exact absurd (by linarith : a1 = a2) hne

theorem arc2rSpec_delta (c pf pt : ℝ × ℝ) :
    (arc2rSpec c pf pt).delta =
      if Real.pi <
          ccwNorm (atan2 (pt.2 - c.2) (pt.1 - c.1) - atan2 (pf.2 - c.2) (pf.1 - c.1))
      then ccwNorm (atan2 (pf.2 - c.2) (pf.1 - c.1) - atan2 (pt.2 - c.2) (pt.1 - c.1))
      else ccwNorm (atan2 (pt.2 - c.2) (pt.1 - c.1) - atan2 (pf.2 - c.2) (pf.1 - c.1)) := by
  simp only [arc2rSpec]
  split_ifs <;> rfl

theorem arc2rSpec_radius (c pf pt : ℝ × ℝ) :
    (arc2rSpec c pf pt).radius =
      Real.sqrt ((pf.1 - c.1) ^ 2 + (pf.2 - c.2) ^ 2) := by
  simp only [arc2rSpec]
  split_ifs <;> rfl

/-- C1 (amended): for every center and boundary points that subtend
distinct `atan2` angles at the center, the sweep computed by `arc2r` -
the counter-clockwise delta from its final start angle to its final end
angle normalized into (0, 2 pi] - is at most pi, regardless of argument
order.  (When the two angles coincide, e.g. boundary points on a common
ray from the center, the code instead produces a full 2 pi sweep; see the
counterexample.) -/
theorem arc2r_minor_sweep (c pf pt : ℝ × ℝ)
    (hne : atan2 (pf.2 - c.2) (pf.1 - c.1) ≠ atan2 (pt.2 - c.2) (pt.1 - c.1)) :
    (arc2rSpec c pf pt).delta ≤ Real.pi := by
  rw [arc2rSpec_delta]
  exact ccwNorm_minor _ _ (atan2_lb _ _) (atan2_ub _ _) (atan2_lb _ _)
    (atan2_ub _ _) hne

/-- C1 counterexample: with center (0,0) and boundary points (1,0) and
(2,0) - both distinct from the center - the two boundary points lie on a
common ray, the normalized counter-clockwise delta is 2 pi on both sides
of the swap, and the computed sweep is 2 pi, strictly greater than pi. -/
theorem arc2r_major_on_common_ray :
    ((1 : ℝ), (0 : ℝ)) ≠ ((0 : ℝ), (0 : ℝ)) ∧
    ((2 : ℝ), (0 : ℝ)) ≠ ((0 : ℝ), (0 : ℝ)) ∧
    Real.pi < (arc2rSpec ((0 : ℝ), (0 : ℝ)) ((1 : ℝ), (0 : ℝ)) ((2 : ℝ), (0 : ℝ))).delta := by
  have hpi := Real.pi_pos
  refine ⟨by simp [Prod.ext_iff], by simp [Prod.ext_iff], ?_⟩
  rw [arc2rSpec_delta]
  have hz : ccwNorm 0 = 2 * Real.pi := by
    unfold ccwNorm; rw [if_pos le_rfl]; ring
  simp only [sub_zero]
  rw [atan2_zero_of_nonneg 1 (by norm_num), atan2_zero_of_nonneg 2 (by norm_num),
    sub_self, hz, if_pos (by linarith)]
  linarith

/-- C1 witness: center (0,0), boundary points (1,0) and (0,1) subtend the
distinct angles 0 and pi/2, and the computed sweep is at most pi. -/
theorem arc2r_minor_sweep_wit :
    atan2 (((1 : ℝ), (0 : ℝ)).2 - ((0 : ℝ), (0 : ℝ)).2)
        (((1 : ℝ), (0 : ℝ)).1 - ((0 : ℝ), (0 : ℝ)).1) ≠
      atan2 (((0 : ℝ), (1 : ℝ)).2 - ((0 : ℝ), (0 : ℝ)).2)
        (((0 : ℝ), (1 : ℝ)).1 - ((0 : ℝ), (0 : ℝ)).1) ∧
    (arc2rSpec ((0 : ℝ), (0 : ℝ)) ((1 : ℝ), (0 : ℝ)) ((0 : ℝ), (1 : ℝ))).delta ≤ Real.pi := by
  have hne : atan2 (((1 : ℝ), (0 : ℝ)).2 - ((0 : ℝ), (0 : ℝ)).2)
      (((1 : ℝ), (0 : ℝ)).1 - ((0 : ℝ), (0 : ℝ)).1) ≠
      atan2 (((0 : ℝ), (1 : ℝ)).2 - ((0 : ℝ), (0 : ℝ)).2)
        (((0 : ℝ), (1 : ℝ)).1 - ((0 : ℝ), (0 : ℝ)).1) := by
    show atan2 ((0 : ℝ) - 0) ((1 : ℝ) - 0) ≠ atan2 ((1 : ℝ) - 0) ((0 : ℝ) - 0)
    simp only [sub_zero]
    rw [atan2_zero_of_nonneg 1 (by norm_num), atan2_one_zero]
    have := Real.pi_pos
    intro h
    linarith
  exact ⟨hne, arc2r_minor_sweep _ _ _ hne⟩

/-- C8: in the fully degenerate call where both boundary points coincide
with the center, the radius `math.hypot` computes is 0, and the command
itself completes with `.ok` inside an open session - the geometry is a
total real computation with no division anywhere. -/
theorem arc2r_degenerate (c : ℝ × ℝ) (s : Ctx) (q : ℚ × ℚ)
    (h : openSession s) :
    (arc2rSpec c c c).radius = 0 ∧ arc2rCmd s (.pt q) q q = .ok (q, s) := by
  constructor
  · rw [arc2rSpec_radius]; simp
  · unfold arc2rCmd; rw [require_ctx_ok s h]; rfl

/-- C8 witness: the degenerate arc at the origin inside a concrete open
cairo session. -/
theorem arc2r_degenerate_wit :
    openSession (openCairo 200 200) ∧
    (arc2rSpec ((0 : ℝ), (0 : ℝ)) ((0 : ℝ), (0 : ℝ)) ((0 : ℝ), (0 : ℝ))).radius = 0 ∧
    arc2rCmd (openCairo 200 200) (.pt ((0 : ℚ), (0 : ℚ))) ((0 : ℚ), (0 : ℚ))
        ((0 : ℚ), (0 : ℚ)) =
      .ok (((0 : ℚ), (0 : ℚ)), openCairo 200 200) := by
  have h : openSession (openCairo 200 200) := by decide
  exact ⟨h, (arc2r_degenerate ((0 : ℝ), (0 : ℝ)) (openCairo 200 200)
    ((0 : ℚ), (0 : ℚ)) h).1,
    (arc2r_degenerate ((0 : ℝ), (0 : ℝ)) (openCairo 200 200) ((0 : ℚ), (0 : ℚ)) h).2⟩

theorem not_open_resetCtx : ¬ openSession resetCtx := by decide

theorem pngRun_finalCtx (hc hp : Bool) (w h : ℚ)
    (block : Ctx → Ctx × Option PyErr) (s0 : Ctx) :
    (pngRun hc hp w h block s0).finalCtx = resetCtx ∨
    (pngRun hc hp w h block s0).finalCtx = s0 := by
  unfold pngRun
  split_ifs
  · cases hval : (block (openCairo w h)).2 <;> exact Or.inl rfl
  · cases hval : (block (openPil w h)).2 <;> exact Or.inl rfl
  · exact Or.inr rfl

/-- C2 counterexample: with the cairo backend available and a block that
raises, the `with png(...)` scope does NOT write the surface (the
`write_to_png` call sits inside `try` before the re-raised exception, not
in `finally`), even though the state is reset; so "finalizes on any exit
path" fails on the exception path. -/
theorem png_exception_skips_write :
    (pngRun true false 200 200 (fun s => (s, some (.valueError "boom")))
        resetCtx).wrote = false ∧
    (pngRun true false 200 200 (fun s => (s, some (.valueError "boom")))
        resetCtx).finalCtx = resetCtx := by
  constructor <;> rfl

/-- C2 (amended): whenever a backend is available, the block's scope exit
always resets every `_ctx` field to the no-session defaults (the `finally`
clause), but the surface is finalized to the output path if and only if
the block exited normally; an exception inside the block skips the write
and propagates. -/
theorem png_reset_always_write_on_success (hc hp : Bool) (w h : ℚ)
    (block : Ctx → Ctx × Option PyErr) (s0 : Ctx)
    (hb : hc = true ∨ hp = true) :
    (pngRun hc hp w h block s0).finalCtx = resetCtx ∧
    ((pngRun hc hp w h block s0).wrote = true ↔
      (block (openedCtx hc w h)).2 = none) ∧
    (pngRun hc hp w h block s0).exn = (block (openedCtx hc w h)).2 := by
  cases hc with
  | true =>
    simp only [pngRun, openedCtx, if_true]
    cases hval : (block (openCairo w h)).2 <;> simp [hval]
  | false =>
    cases hp with
    | false => rcases hb with hbb | hbb <;> exact Bool.noConfusion hbb
    | true =>
      simp only [pngRun, openedCtx, Bool.false_eq_true, if_false, if_true]
      cases hval : (block (openPil w h)).2 <;> simp [hval]

/-- C2 witness: cairo available, a block that finishes normally; the state
is reset and the surface is written. -/
theorem png_reset_wit :
    (true = true ∨ false = true) ∧
    ((pngRun true false 200 200 (fun s => (s, none)) resetCtx).finalCtx = resetCtx ∧
      ((pngRun true false 200 200 (fun s => (s, none)) resetCtx).wrote = true ↔
        ((fun (s : Ctx) => (s, (none : Option PyErr))) (openedCtx true 200 200)).2 = none) ∧
      (pngRun true false 200 200 (fun s => (s, none)) resetCtx).exn =
        ((fun (s : Ctx) => (s, (none : Option PyErr))) (openedCtx true 200 200)).2) :=
  ⟨Or.inl rfl,
    png_reset_always_write_on_success true false 200 200 (fun s => (s, none))
      resetCtx (Or.inl rfl)⟩

/-- C5: every drawing and state-setting command starts with
`_require_ctx`, so with no active session each of them fails with the
no-active-session `RuntimeError`; and the context a `png` scope leaves
behind is again a no-active-session context, so the same commands fail the
same way after the scope exits. -/
theorem no_active_session_rejects (s : Ctx) (col bg : ColorInput)
    (a lw fs rad rw0 rh r1 r2 r3 w h : ℚ) (style : DashArg)
    (ctr pos p1 p2 q0 q1 q2 q3 mp : PtArg) (text anchor : String)
    (pf pt : ℚ × ℚ) (st fl : Bool) (hc hp : Bool)
    (block : Ctx → Ctx × Option PyErr)
    (hno : ¬ openSession s) :
    sethue s col = .error noActiveErr ∧
    setopacity s a = .error noActiveErr ∧
    setlinewidth s lw = .error noActiveErr ∧
    setdash s style = .error noActiveErr ∧
    backgroundCmd s bg = .error noActiveErr ∧
    circleCmd s ctr rad st fl = .error noActiveErr ∧
    rectCmd s ctr rw0 rh st fl = .error noActiveErr ∧
    lineCmd s p1 p2 = .error noActiveErr ∧
    bezierCmd s q0 q1 q2 q3 = .error noActiveErr ∧
    labelCmd s text anchor pos fs = .error noActiveErr ∧
    arc2rCmd s ctr pf pt = .error noActiveErr ∧
    move s mp = .error noActiveErr ∧
    randomhue s r1 r2 r3 = .error noActiveErr ∧
    ¬ openSession ((pngRun hc hp w h block resetCtx).finalCtx) := by
  have hre := require_ctx_err s hno
  refine ⟨?_, ?_, ?_, ?_, ?_, ?_, ?_, ?_, ?_, ?_, ?_, ?_, ?_, ?_⟩
  · unfold sethue; rw [hre]; rfl
  · unfold setopacity; rw [hre]; rfl
  · unfold setlinewidth; rw [hre]; rfl
  · unfold setdash; rw [hre]; rfl
  · unfold backgroundCmd; rw [hre]; rfl
  · unfold circleCmd; rw [hre]; rfl
  · unfold rectCmd; rw [hre]; rfl
  · unfold lineCmd; rw [hre]; rfl
  · unfold bezierCmd; rw [hre]; rfl
  · unfold labelCmd; rw [hre]; rfl
  · unfold arc2rCmd; rw [hre]; rfl
  · unfold move; rw [hre]; rfl
  · unfold randomhue; rw [hre]; rfl
  · rcases pngRun_finalCtx hc hp w h block resetCtx with hfin | hfin <;>
      rw [hfin] <;> exact not_open_resetCtx

/-- C5 witness: the module-load context is not an open session, and a
concrete command invoked on it fails with the no-active-session error. -/
theorem no_active_session_rejects_wit :
    ¬ openSession resetCtx ∧
    sethue resetCtx (.str (codes "red")) = .error noActiveErr ∧
    lineCmd resetCtx (.pt (0, 0)) (.pt (1, 1)) = .error noActiveErr := by
  have hno : ¬ openSession resetCtx := not_open_resetCtx
  have hall := no_active_session_rejects resetCtx (.str (codes "red"))
    (.str (codes "red")) 0 0 0 0 0 0 0 0 0 200 200 .none (.pt (0, 0))
    (.pt (0, 0)) (.pt (0, 0)) (.pt (1, 1)) (.pt (0, 0)) (.pt (0, 0))
    (.pt (0, 0)) (.pt (0, 0)) (.pt (0, 0)) "t" "C" (0, 0) (0, 0) true true
    true false (fun s => (s, none)) hno
  exact ⟨hno, hall.1, hall.2.2.2.2.2.2.2.1⟩

/-- C6: for positive canvas dimensions the additive transform maps the
logical origin point (0, 0) to the pixel midpoint (w/2, h/2), and inside
any open session the symbolic origin "O" short-circuits in `circle` to the
literal pixel midpoint (computed directly from the stored width and
height, without calling `_to_canvas_xy`). -/
theorem to_canvas_center (w h rad : ℚ) (st fl : Bool) (s : Ctx)
    (hw : 0 < w) (hh : 0 < h) (hs : openSession s) :
    to_canvas_xy w h (0, 0) = (w / 2, h / 2) ∧
    circleCmd s .O rad st fl = .ok ((s.width / 2, s.height / 2), s) := by
  constructor
  · unfold to_canvas_xy; norm_num
  · unfold circleCmd; rw [require_ctx_ok s hs]; rfl

/-- C6 witness: a concrete 200 by 200 canvas. -/
theorem to_canvas_center_wit :
    (0 : ℚ) < 200 ∧ openSession (openCairo 200 200) ∧
    to_canvas_xy 200 200 (0, 0) = (200 / 2, 200 / 2) ∧
    circleCmd (openCairo 200 200) .O 50 true false =
      .ok (((openCairo 200 200).width / 2, (openCairo 200 200).height / 2),
        openCairo 200 200) := by
  have hs : openSession (openCairo 200 200) := by decide
  have hh := to_canvas_center 200 200 50 true false (openCairo 200 200)
    (by norm_num) (by norm_num) hs
  exact ⟨by norm_num, hs, hh.1, hh.2⟩

/-- C9: inside an open session, `setdash("dot")` stores the pattern
(1.5, 3.0), `setdash("dash")` stores (6.0, 4.0), `setdash(None)` clears
the pattern, and any string other than the three named styles raises the
invalid-dash-style `ValueError`. -/
theorem setdash_styles (s : Ctx) (styleStr : String) (hs : openSession s)
    (h1 : styleStr ≠ "solid") (h2 : styleStr ≠ "dot") (h3 : styleStr ≠ "dash") :
    setdash s (.str "dot") = .ok { s with dash := some [1.5, 3.0] } ∧
    setdash s (.str "dash") = .ok { s with dash := some [6.0, 4.0] } ∧
    setdash s .none = .ok { s with dash := none } ∧
    setdash s (.str styleStr) = .error (.valueError "Unknown dash style") := by
  have hok := require_ctx_ok s hs
  refine ⟨?_, ?_, ?_, ?_⟩
  · unfold setdash; rw [hok]; rfl
  · unfold setdash; rw [hok]; rfl
  · unfold setdash; rw [hok]; rfl
  · have hd : dashOf (.str styleStr) = .error (.valueError "Unknown dash style") := by
      simp only [dashOf]
      rw [if_neg h1, if_neg h2, if_neg h3]
    unfold setdash
    rw [hok, hd]
    rfl

/-- C9 witness: a concrete open session and the unknown style "wavy". -/
theorem setdash_styles_wit :
    openSession (openCairo 200 200) ∧ "wavy" ≠ "solid" ∧
    setdash (openCairo 200 200) (.str "dot") =
      .ok { openCairo 200 200 with dash := some [1.5, 3.0] } ∧
    setdash (openCairo 200 200) (.str "wavy") =
      .error (.valueError "Unknown dash style") := by
  have hs : openSession (openCairo 200 200) := by decide
  have hh := setdash_styles (openCairo 200 200) "wavy" hs (by decide)
    (by decide) (by decide)
  exact ⟨hs, by decide, hh.1, hh.2.2.2⟩

/-- C10 counterexample: `move` also takes a point argument (its stored
current point) and accepts the symbolic origin "O" without raising - it
stores the symbol verbatim and never inspects its coordinates - so circle,
rect and arc2r are not the only commands that accept "O". -/
theorem move_accepts_origin_symbol :
    move (openCairo 200 200) .O =
      .ok { openCairo 200 200 with current_point := some .O } := by
  unfold move
  rw [require_ctx_ok (openCairo 200 200) (by decide)]
  rfl

/-- C10 (amended): inside an open session, passing the symbolic origin "O"
as a point to `line`, `bezier` or `label` raises a `TypeError` from the
float-plus-string addition inside `_to_canvas_xy` (in every argument
position), while `circle`, `rect` and `arc2r` map it to the canvas center
resp. the logical origin; `move` is the one other command taking a point
and it stores any argument, the symbol included, without error. -/
theorem origin_point_handling (s : Ctx) (q pf pt : ℚ × ℚ)
    (rad rw0 rh fs : ℚ) (st fl : Bool) (text anchor : String) (mp : PtArg)
    (hs : openSession s) :
    lineCmd s .O (.pt q) = .error originTypeErr ∧
    lineCmd s (.pt q) .O = .error originTypeErr ∧
    bezierCmd s .O (.pt q) (.pt q) (.pt q) = .error originTypeErr ∧
    bezierCmd s (.pt q) .O (.pt q) (.pt q) = .error originTypeErr ∧
    bezierCmd s (.pt q) (.pt q) .O (.pt q) = .error originTypeErr ∧
    bezierCmd s (.pt q) (.pt q) (.pt q) .O = .error originTypeErr ∧
    labelCmd s text anchor .O fs = .error originTypeErr ∧
    circleCmd s .O rad st fl = .ok ((s.width / 2, s.height / 2), s) ∧
    rectCmd s .O rw0 rh st fl = .ok ((s.width / 2, s.height / 2), s) ∧
    arc2rCmd s .O pf pt = .ok ((0, 0), s) ∧
    move s mp = .ok { s with current_point := some mp } := by
  have hok := require_ctx_ok s hs
  refine ⟨?_, ?_, ?_, ?_, ?_, ?_, ?_, ?_, ?_, ?_, ?_⟩
  · unfold lineCmd; rw [hok]; rfl
  · unfold lineCmd; rw [hok]; rfl
  · unfold bezierCmd; rw [hok]; rfl
  · unfold bezierCmd; rw [hok]; rfl
  · unfold bezierCmd; rw [hok]; rfl
  · unfold bezierCmd; rw [hok]; rfl
  · unfold labelCmd; rw [hok]; rfl
  · unfold circleCmd; rw [hok]; rfl
  · unfold rectCmd; rw [hok]; rfl
  · unfold arc2rCmd; rw [hok]; rfl
  · unfold move; rw [hok]; rfl

/-- C10 witness: a concrete open session; "O" raises in `line` and is
mapped to the pixel midpoint in `circle`. -/
theorem origin_point_handling_wit :
    openSession (openCairo 200 200) ∧
    lineCmd (openCairo 200 200) .O (.pt (1, 1)) = .error originTypeErr ∧
    circleCmd (openCairo 200 200) .O 50 true false =
      .ok (((openCairo 200 200).width / 2, (openCairo 200 200).height / 2),
        openCairo 200 200) := by
  have hs : openSession (openCairo 200 200) := by decide
  have hh := origin_point_handling (openCairo 200 200) (1, 1) (0, 0) (0, 0)
    50 10 10 16 true false "t" "N" (.pt (2, 2)) hs
  exact ⟨hs, hh.1, hh.2.2.2.2.2.2.2.1⟩

/-- Computation rule of the tuple branch of `_parse_color` on a tuple with
at least three components. -/
theorem parse_color_triple_cons (v0 v1 v2 : ℚ) (rest : List ℚ) :
    parse_color (.triple (v0 :: v1 :: v2 :: rest)) =
      if 1 < max v0 (max v1 v2) then .ok (v0 / 255, v1 / 255, v2 / 255)
      else .ok (v0, v1, v2) := rfl

theorem hexVal_le (n d : ℕ) (h : hexVal n = some d) : d ≤ 15 := by
  unfold hexVal at h
  split_ifs at h <;> simp_all <;> omega

/-- On a digit-digit slice the `int` model succeeds with a byte value. -/
theorem int16OfPair_ok (c1 c2 : ℕ) (h1 : (hexVal c1).isSome = true)
    (h2 : (hexVal c2).isSome = true) :
    ∃ n : ℤ, int16OfPair c1 c2 = .ok n ∧ 0 ≤ n ∧ n ≤ 255 := by
  obtain ⟨d1, hd1⟩ := Option.isSome_iff_exists.mp h1
  obtain ⟨d2, hd2⟩ := Option.isSome_iff_exists.mp h2
  refine ⟨16 * (d1 : ℤ) + (d2 : ℤ), ?_, ?_, ?_⟩
  · unfold int16OfPair
    rw [hd1, hd2]
  · positivity
  · have b1 := hexVal_le c1 d1 hd1
    have b2 := hexVal_le c2 d2 hd2
    omega

theorem isOkE_ok (e : Except PyErr ℤ) (h : isOkE e = true) :
    ∃ n, e = .ok n := by
  cases e with
  | ok n => exact ⟨n, rfl⟩
  | error e0 => simp [isOkE] at h

theorem simpleColors_inUnit (key : List ℕ) (c : ℚ × ℚ × ℚ)
    (h : simpleColors key = some c) : inUnitRange c := by
  unfold simpleColors at h
  split_ifs at h <;>
    first
      | (simp only [Option.some.injEq] at h; subst h; norm_num [inUnitRange])
      | simp at h

/-- Table-hit computation rule of the string branch of `_parse_color`. -/
theorem parse_color_str_table (cs : List ℕ) (c : ℚ × ℚ × ℚ)
    (hsc : simpleColors (pyLower (pyStrip cs)) = some c) :
    parse_color (.str cs) = .ok c := by
  simp only [parse_color, hsc]

/-- Fallthrough-to-black computation rule of the string branch. -/
theorem parse_color_str_black (cs : List ℕ)
    (hsc : simpleColors (pyLower (pyStrip cs)) = none)
    (hsh : hexShaped (pyLower (pyStrip cs)) = false) :
    parse_color (.str cs) = .ok (0.0, 0.0, 0.0) := by
  simp only [parse_color, hsc, hsh, Bool.false_eq_true, if_false]

/-- Six-digit-hex computation rule of the string branch. -/
theorem parse_color_str_hex7 (cs : List ℕ) (r g b : ℤ)
    (hsc : simpleColors (pyLower (pyStrip cs)) = none)
    (hsh : hexShaped (pyLower (pyStrip cs)) = true)
    (h7 : (pyLower (pyStrip cs)).length = 7)
    (hr : int16OfPair ((pyLower (pyStrip cs)).getD 1 0)
        ((pyLower (pyStrip cs)).getD 2 0) = .ok r)
    (hg : int16OfPair ((pyLower (pyStrip cs)).getD 3 0)
        ((pyLower (pyStrip cs)).getD 4 0) = .ok g)
    (hb : int16OfPair ((pyLower (pyStrip cs)).getD 5 0)
        ((pyLower (pyStrip cs)).getD 6 0) = .ok b) :
    parse_color (.str cs) =
      .ok ((r : ℚ) / 255, (g : ℚ) / 255, (b : ℚ) / 255) := by
  have h7t : (((pyLower (pyStrip cs)).length == 7) = true) := by
    rw [h7]
    decide
  simp only [parse_color, hsc, hsh, h7t, eq_self_iff_true, if_true, hr, hg, hb]

/-- Three-digit-hex computation rule of the string branch (each digit
doubled). -/
theorem parse_color_str_hex4 (cs : List ℕ) (r g b : ℤ)
    (hsc : simpleColors (pyLower (pyStrip cs)) = none)
    (hsh : hexShaped (pyLower (pyStrip cs)) = true)
    (h4 : (pyLower (pyStrip cs)).length = 4)
    (hr : int16OfPair ((pyLower (pyStrip cs)).getD 1 0)
        ((pyLower (pyStrip cs)).getD 1 0) = .ok r)
    (hg : int16OfPair ((pyLower (pyStrip cs)).getD 2 0)
        ((pyLower (pyStrip cs)).getD 2 0) = .ok g)
    (hb : int16OfPair ((pyLower (pyStrip cs)).getD 3 0)
        ((pyLower (pyStrip cs)).getD 3 0) = .ok b) :
    parse_color (.str cs) =
      .ok ((r : ℚ) / 255, (g : ℚ) / 255, (b : ℚ) / 255) := by
  have h7f : ¬ (((pyLower (pyStrip cs)).length == 7) = true) := by
    rw [h4]
    decide
  simp only [parse_color, hsc, hsh, eq_self_iff_true, if_true]
  rw [if_neg h7f]
  simp only [hr, hg, hb]

/-- Channels of every color the string branch of `_parse_color` returns
lie in [0, 1] provided any hex slices consist of plain hex digits: the
table values are in range, and an all-digit hex branch divides a byte
value in [0, 255] by 255.  (With a signed slice such as "-a" the source
accepts the string but produces a negative channel; see the C4
counterexample.) -/
theorem parse_color_str_inUnit (cs : List ℕ) (c : ℚ × ℚ × ℚ)
    (hhx : hexDigitsOK (pyLower (pyStrip cs)) = true)
    (h : parse_color (.str cs) = .ok c) : inUnitRange c := by
  cases hsc : simpleColors (pyLower (pyStrip cs)) with
  | some c0 =>
    rw [parse_color_str_table cs c0 hsc] at h
    simp only [Except.ok.injEq] at h
    subst h
    exact simpleColors_inUnit _ _ hsc
  | none =>
    by_cases hsh : hexShaped (pyLower (pyStrip cs)) = true
    · by_cases h7 : (pyLower (pyStrip cs)).length = 7
      · unfold hexDigitsOK at hhx
        rw [if_pos (by rw [h7]; decide)] at hhx
        simp only [Bool.and_eq_true] at hhx
        obtain ⟨⟨⟨⟨⟨hx1, hx2⟩, hx3⟩, hx4⟩, hx5⟩, hx6⟩ := hhx
        obtain ⟨r, hokr, hr0, hr1⟩ := int16OfPair_ok _ _ hx1 hx2
        obtain ⟨g, hokg, hg0, hg1⟩ := int16OfPair_ok _ _ hx3 hx4
        obtain ⟨b, hokb, hb0, hb1⟩ := int16OfPair_ok _ _ hx5 hx6
        rw [parse_color_str_hex7 cs r g b hsc hsh h7 hokr hokg hokb] at h
        simp only [Except.ok.injEq] at h
        subst h
        unfold inUnitRange
        refine ⟨div_nonneg (by exact_mod_cast hr0) (by norm_num),
          (div_le_one (by norm_num)).mpr (by exact_mod_cast hr1),
          div_nonneg (by exact_mod_cast hg0) (by norm_num),
          (div_le_one (by norm_num)).mpr (by exact_mod_cast hg1),
          div_nonneg (by exact_mod_cast hb0) (by norm_num),
          (div_le_one (by norm_num)).mpr (by exact_mod_cast hb1)⟩
      · have h4 : (pyLower (pyStrip cs)).length = 4 := by
          unfold hexShaped at hsh
          simp only [Bool.and_eq_true, Bool.or_eq_true, beq_iff_eq] at hsh
          rcases hsh.2 with hcase | hcase
          · exact hcase
          · exact absurd hcase h7
        unfold hexDigitsOK at hhx
        rw [if_neg (by rw [h4]; decide), if_pos (by rw [h4]; decide)] at hhx
        simp only [Bool.and_eq_true] at hhx
        obtain ⟨⟨hx1, hx2⟩, hx3⟩ := hhx
        obtain ⟨r, hokr, hr0, hr1⟩ := int16OfPair_ok _ _ hx1 hx1
        obtain ⟨g, hokg, hg0, hg1⟩ := int16OfPair_ok _ _ hx2 hx2
        obtain ⟨b, hokb, hb0, hb1⟩ := int16OfPair_ok _ _ hx3 hx3
        rw [parse_color_str_hex4 cs r g b hsc hsh h4 hokr hokg hokb] at h
        simp only [Except.ok.injEq] at h
        subst h
        unfold inUnitRange
        refine ⟨div_nonneg (by exact_mod_cast hr0) (by norm_num),
          (div_le_one (by norm_num)).mpr (by exact_mod_cast hr1),
          div_nonneg (by exact_mod_cast hg0) (by norm_num),
          (div_le_one (by norm_num)).mpr (by exact_mod_cast hg1),
          div_nonneg (by exact_mod_cast hb0) (by norm_num),
          (div_le_one (by norm_num)).mpr (by exact_mod_cast hb1)⟩
    · rw [parse_color_str_black cs hsc (Bool.not_eq_true _ ▸ hsh)] at h
      simp only [Except.ok.injEq] at h
      subst h
      norm_num [inUnitRange]

/-- C7: the hex string "#ff0000", the 0-255 integer triple (255,0,0), the
float triple (1.0,0.0,0.0) and the color name "red" all parse to the same
color (1.0, 0.0, 0.0). -/
theorem parse_color_red_roundtrip :
    parse_color (.str (codes "#ff0000")) = .ok (1.0, 0.0, 0.0) ∧
    parse_color (.triple [255, 0, 0]) = .ok (1.0, 0.0, 0.0) ∧
    parse_color (.triple [1.0, 0.0, 0.0]) = .ok (1.0, 0.0, 0.0) ∧
    parse_color (.str (codes "red")) = .ok (1.0, 0.0, 0.0) := by
  refine ⟨?_, ?_, ?_, ?_⟩
  · have h : parse_color (.str (codes "#ff0000")) =
        .ok (((255 : ℤ) : ℚ) / 255, ((0 : ℤ) : ℚ) / 255, ((0 : ℤ) : ℚ) / 255) := rfl
    rw [h]
    norm_num
  · rw [parse_color_triple_cons, if_pos (lt_max_iff.mpr (Or.inl (by norm_num)))]
    norm_num
  · rw [parse_color_triple_cons, if_neg
      (not_lt.mpr (max_le (by norm_num) (max_le (by norm_num) (by norm_num))))]
  · rfl

